import Mathlib

/-!
Shallow embedding of the Hide N Seek core (src/hns/fs.py and
src/hns/sanitizer.py) on the Linux platform branch, together with
theorems checking the specification's claims about the shared
action journal, the visibility toggle engine, the sanitize engine
and the two undo operations.

Modelling conventions:
* a filesystem path is the list of its name components;
* the world state `St` holds the set of existing directories, the set of
  existing regular files (each carrying its stat times and an identity
  tag so that data loss is observable), and the content of the persisted
  history file `~/.hns_history.json` as a list of decoded entries;
* Python exceptions are modelled by threading the state together with an
  `Option Err`: an operation returns the state as it is at the moment the
  exception propagates, matching a raised exception over a mutable world;
* the only external primitives the Linux branch uses are `mv` (via
  `subprocess.run(check=True)`) and `Path.rename`/`Path.mkdir`; they are
  modelled on the cases the code exercises (see their doc comments).
-/

namespace Hns

/-- Filesystem path, as its list of name components. -/
abbrev FsPath := List String

/-- Calendar date carried by a file stat entry; `datetime.fromtimestamp`
composed with `strftime` is modelled by rendering this record. -/
structure Date where
  y : Nat
  m : Nat
  d : Nat
deriving DecidableEq, Repr

/-- Regular file: its current path, creation time (`st_ctime`),
modification time (`st_mtime`), and an identity tag used only to observe
which file ends up where (data-loss visibility). -/
structure SFile where
  path : FsPath
  ctime : Date
  mtime : Date
  tag : Nat
deriving DecidableEq, Repr

/-- Action of fs.py: one hide/seek operation recorded for undo. The `op`
field is the literal string stored in the JSON record. -/
structure Action where
  timestamp : Nat
  path : FsPath
  op : String
  recursive : Bool
deriving DecidableEq, Repr

/-- Move record `_Move` of sanitizer.py. -/
structure Move where
  src : FsPath
  dst : FsPath
deriving DecidableEq, Repr

/-- History record `_HistoryEntry` of sanitizer.py; `op` is the literal
discriminator string stored in the JSON record (always "sanitize" as
constructed by `sanitize`). -/
structure SanEntry where
  timestamp : Nat
  op : String
  root : FsPath
  moves : List Move
deriving DecidableEq, Repr

/-- One decoded record of the persisted `~/.hns_history.json` list: a
visibility `Action` dict or a sanitize batch dict, distinguished by
their key sets. -/
inductive Entry where
  | action : Action → Entry
  | sanitize : SanEntry → Entry
deriving DecidableEq, Repr

/-- World state: existing directories, existing regular files, and the
persisted history file content. -/
structure St where
  dirs : List FsPath
  files : List SFile
  journal : List Entry
deriving DecidableEq, Repr

/-- Python exceptions raised by the embedded code. -/
inductive Err where
  | fileNotFound : FsPath → Err
  | calledProcessError : Err
  | runtimeError : String → Err
  | typeError : Err
  | valueError : Err
  | keyError : Err
deriving DecidableEq, Repr

/-- Sequencing of exception-threaded steps: a raised exception propagates
with the state it was raised in. -/
def andThen (r : St × Option Err) (f : St → St × Option Err) : St × Option Err :=
  match r with
  | (st, none) => f st
  | (st, some e) => (st, some e)

/-- Final name component, `Path(...).name`. -/
def pname (p : FsPath) : String := p.getLastD ""

/-- Replace the final name component, `Path.with_name`. -/
def withName (p : FsPath) (n : String) : FsPath := p.dropLast ++ [n]

/-- Python `name.startswith(".")`: true when the first character is a
dot. -/
def startsWithDot (s : String) : Bool :=
  match s.toList with
  | [] => false
  | c :: _ => c == '.'

/-- Python `str.lstrip(".")`: drop every leading dot. -/
def lstripDot (s : String) : String := String.mk (s.toList.dropWhile (fun c => c == '.'))

/-- Python `str.lower()` on the ASCII names this code handles. -/
def lowerStr (s : String) : String := String.mk (s.toList.map Char.toLower)

/-- Python `pathlib` suffix of a file name: the part from the last dot on,
empty when there is no dot, when the only dot is leading, or when the dot
is trailing. -/
def pySuffix (n : String) : String :=
  let cs := n.toList
  let idxs := (List.range cs.length).filter (fun i => cs.getD i ' ' == '.')
  match idxs.getLast? with
  | none => ""
  | some i => if 0 < i ∧ i + 1 < cs.length then String.mk (cs.drop i) else ""

/-- Python `pathlib` stem: the name without its suffix. -/
def pyStem (n : String) : String :=
  String.mk (n.toList.take (n.toList.length - (pySuffix n).toList.length))

/-- Python `Path.with_stem`: replace the stem, keep the suffix. -/
def withStem (p : FsPath) (s : String) : FsPath := withName p (s ++ pySuffix (pname p))

/-- True when a directory or a file exists at `p` (Python `Path.exists`). -/
def pathExists (st : St) (p : FsPath) : Bool :=
  st.dirs.contains p || st.files.any (fun f => f.path == p)

/-- Rewrite `p` when it lies at or below `src`, as a rename of `src` to
`dst` does. -/
def replaceRoot (src dst p : FsPath) : FsPath :=
  if src.isPrefixOf p then dst ++ p.drop src.length else p

/-- Models the external `mv src dst` primitive invoked through
`subprocess.run(check=True)` in the cases fs.py exercises (the
destination path is fresh): it fails when the source does not exist, and
otherwise renames the entry together with everything beneath it. -/
def mvPrim (st : St) (src dst : FsPath) : St × Option Err :=
  if pathExists st src then
    ({ st with
        dirs := st.dirs.map (replaceRoot src dst),
        files := st.files.map (fun f => { f with path := replaceRoot src dst f.path }) },
      none)
  else (st, some .calledProcessError)

/-- Function `_run` of fs.py applied to a `mv` command: in dry-run mode it
only prints; otherwise it runs the primitive. -/
def runMv (dry : Bool) (st : St) (src dst : FsPath) : St × Option Err :=
  if dry then (st, none) else mvPrim st src dst

/-- Function `_linux_hide_path` of fs.py. -/
def linuxHidePath (st : St) (p : FsPath) (dry : Bool) : St × Option Err :=
  if startsWithDot (pname p) then (st, none)
  else runMv dry st p (withName p ("." ++ pname p))

/-- Function `_linux_seek_path` of fs.py. -/
def linuxSeekPath (st : St) (p : FsPath) (dry : Bool) : St × Option Err :=
  if !(startsWithDot (pname p)) then (st, none)
  else runMv dry st p (withName p (lstripDot (pname p)))

/-- Function `_descend_dirs` of fs.py: the directories below `root`
yielded by `os.walk(root)`, root excluded; the snapshot list is fully
built before the caller's loop runs. -/
def descendDirs (st : St) (root : FsPath) : List FsPath :=
  st.dirs.filter (fun d => root.isPrefixOf d && !(d == root))

/-- Sequential application of a per-path step to a precomputed snapshot
list, threading the evolving state, as the `for sub in _descend_dirs(p)`
loops of `_linux` do. -/
def foldPaths (f : St → FsPath → Bool → St × Option Err) (st : St) (ps : List FsPath)
    (dry : Bool) : St × Option Err :=
  match ps with
  | [] => (st, none)
  | p :: rest => andThen (f st p dry) (fun st1 => foldPaths f st1 rest dry)

/-- Function `_linux` of fs.py: existence check, then the root rename,
then (when recursive) each directory of the post-root-rename snapshot. -/
def linux (st : St) (a : Action) (dry : Bool) : St × Option Err :=
  if !(pathExists st a.path) then (st, some (.fileNotFound a.path))
  else if a.op == "hide" then
    andThen (linuxHidePath st a.path dry) (fun st1 =>
      if a.recursive then foldPaths linuxHidePath st1 (descendDirs st1 a.path) dry
      else (st1, none))
  else
    andThen (linuxSeekPath st a.path dry) (fun st1 =>
      if a.recursive then foldPaths linuxSeekPath st1 (descendDirs st1 a.path) dry
      else (st1, none))

/-- Method `Action.inverse` of fs.py: flip the operation, keep path and
recursive flag, fresh timestamp. -/
def Action.inverse (a : Action) (now : Nat) : Action :=
  ⟨now, a.path, if a.op == "hide" then "seek" else "hide", a.recursive⟩

/-- Function `_record_action` of fs.py: load the persisted history,
append the action dict, save. -/
def recordAction (st : St) (a : Action) : St :=
  { st with journal := st.journal ++ [.action a] }

/-- Function `_dispatch` of fs.py on the Linux platform branch: run the
platform operation, then (outside dry-run) append the action to the
history. -/
def dispatch (st : St) (a : Action) (dry : Bool) : St × Option Err :=
  andThen (linux st a dry) (fun st1 =>
    if dry then (st1, none) else (recordAction st1 a, none))

/-- Function `hide` of fs.py. -/
def hide (st : St) (now : Nat) (p : FsPath) (recursive : Bool) (dry : Bool) :
    St × Option Err :=
  dispatch st ⟨now, p, "hide", recursive⟩ dry

/-- Function `seek` of fs.py. -/
def seek (st : St) (now : Nat) (p : FsPath) (recursive : Bool) (dry : Bool) :
    St × Option Err :=
  dispatch st ⟨now, p, "seek", recursive⟩ dry

/-- Function `is_hidden` of fs.py on Linux: existence check, then the
leading-dot test on the name. -/
def isHidden (st : St) (p : FsPath) : Except Err Bool :=
  if !(pathExists st p) then .error (.fileNotFound p)
  else .ok (startsWithDot (pname p))

/-- Function `revert_last_change` of fs.py: pop the last history record
(in memory), decode it as an `Action` dict (a sanitize dict raises
TypeError), dispatch the inverse (which, outside dry-run, itself appends
the inverse to the persisted file), then overwrite the persisted file
with the popped list. -/
def revertLastChange (st : St) (now : Nat) (dry : Bool) : St × Option Err :=
  match st.journal.getLast? with
  | none => (st, some (.runtimeError "No actions to revert."))
  | some (.sanitize _) => (st, some .typeError)
  | some (.action a) =>
    andThen (dispatch st (a.inverse now) dry) (fun st1 =>
      if dry then (st1, none) else ({ st1 with journal := st.journal.dropLast }, none))

/-- Options dataclass `SanitizerOptions` of sanitizer.py. -/
structure SanitizerOptions where
  sani_name : Bool := false
  sort_by_type : Bool := false
  sort_by_date : Bool := false
  keep_date_saved : Bool := false
  keep_date_created : Bool := false
  recursive : Bool := false
  cleanup_empty : Bool := false
  dry_run : Bool := false
deriving DecidableEq, Repr

/-- Zero-padded two-digit rendering, as `strftime` "%m"/"%d". -/
def pad2 (n : Nat) : String := if n < 10 then "0" ++ toString n else toString n

/-- Zero-padded four-digit rendering, as `strftime` "%Y". -/
def pad4 (n : Nat) : String :=
  if n < 10 then "000" ++ toString n
  else if n < 100 then "00" ++ toString n
  else if n < 1000 then "0" ++ toString n
  else toString n

/-- Rendering `strftime("%Y-%m-%d")` of a date. -/
def fmtYmd (dt : Date) : String := pad4 dt.y ++ "-" ++ pad2 dt.m ++ "-" ++ pad2 dt.d

/-- Function `_gather_files` of sanitizer.py: with `recursive` every file
strictly below `root` (`rglob`), otherwise the immediate file children
(`iterdir`), in file-enumeration order. -/
def gatherFiles (st : St) (root : FsPath) (recursive : Bool) : List SFile :=
  if recursive then
    st.files.filter (fun f => root.isPrefixOf f.path && !(f.path == root))
  else
    st.files.filter (fun f => f.path.dropLast == root && f.path.length == root.length + 1)

/-- Function `_file_date` of sanitizer.py: modification time when
`keep_date_saved`, else creation time. -/
def fileDate (f : SFile) (opts : SanitizerOptions) : Date :=
  if opts.keep_date_saved then f.mtime else f.ctime

/-- Function `_target_path` of sanitizer.py; `rand` is the string the
call to `random.randint(0, 999)` would yield, `today` the module
constant `TODAY`. -/
def targetPath (f : SFile) (root : FsPath) (opts : SanitizerOptions)
    (rand today : String) : FsPath :=
  let base := root
  let base := if opts.sort_by_type then base ++ [lowerStr (lstripDot (pySuffix (pname f.path)))]
    else base
  let base :=
    if opts.sort_by_date then
      let dateFolder := fmtYmd (fileDate f opts)
      if opts.sort_by_type then base ++ [dateFolder] else base ++ [dateFolder]
    else base
  let newName :=
    if opts.sani_name then rand ++ "_" ++ today ++ lowerStr (pySuffix (pname f.path))
    else pname f.path
  base ++ [newName]

/-- Planning loop of `sanitize`: for each gathered file, in order, compute
the destination and skip files already in place; `i` indexes the random
draw of each `_target_path` call. -/
def planMovesAux (root : FsPath) (opts : SanitizerOptions) (rands : Nat → String)
    (today : String) : List SFile → Nat → List Move
  | [], _ => []
  | f :: rest, i =>
    let dst := targetPath f root opts (rands i) today
    if dst == f.path then planMovesAux root opts rands today rest (i + 1)
    else ⟨f.path, dst⟩ :: planMovesAux root opts rands today rest (i + 1)

/-- Planned move list of one `sanitize` invocation. -/
def planMoves (files : List SFile) (root : FsPath) (opts : SanitizerOptions)
    (rands : Nat → String) (today : String) : List Move :=
  planMovesAux root opts rands today files 0

/-- Models `Path.mkdir(parents=True, exist_ok=True)`: create every missing
ancestor directory of `p` and `p` itself. -/
def mkdirParents (dirs : List FsPath) (p : FsPath) : List FsPath :=
  dirs ++ ((List.range p.length).map (fun i => p.take (i + 1))).filter
    (fun q => !(dirs.contains q))

/-- Bounded search of function `_unique_path` of sanitizer.py: successive
candidates `stem_1`, `stem_2`, … are pairwise distinct, so a fuel of one
more than the number of existing paths makes the while loop terminate at
the same candidate the source finds. -/
def uniquePathAux (st : St) (orig : FsPath) : Nat → Nat → FsPath → FsPath
  | _, 0, cand => cand
  | counter, fuel + 1, cand =>
    if pathExists st cand then
      uniquePathAux st orig (counter + 1) fuel
        (withStem orig (pyStem (pname orig) ++ "_" ++ toString counter))
    else cand

/-- Function `_unique_path` of sanitizer.py. -/
def uniquePath (st : St) (p : FsPath) : FsPath :=
  uniquePathAux st p 1 (st.dirs.length + st.files.length + 1) p

/-- Function `_apply_move` of sanitizer.py: in dry-run only print;
otherwise create the destination's parents, resolve collisions at apply
time, and rename the source file (`Path.rename` raises FileNotFoundError
when the source is missing). -/
def applyMove (st : St) (src dst : FsPath) (dry : Bool) : St × Option Err :=
  if dry then (st, none)
  else
    let st1 := { st with dirs := mkdirParents st.dirs dst.dropLast }
    let dst2 := uniquePath st1 dst
    if st1.files.any (fun f => f.path == src) then
      ({ st1 with
          files := st1.files.map (fun f => if f.path == src then { f with path := dst2 } else f) },
        none)
    else (st1, some (.fileNotFound src))

/-- Sequential application of a move list, threading the evolving state,
as the `for mv in moves` loops of sanitizer.py do. -/
def applyMoves (st : St) (moves : List Move) (dry : Bool) : St × Option Err :=
  match moves with
  | [] => (st, none)
  | m :: rest => andThen (applyMove st m.src m.dst dry) (fun st1 => applyMoves st1 rest dry)

/-- Insertion into a list kept sorted by decreasing path length. -/
def insertByLenDesc (p : FsPath) : List FsPath → List FsPath
  | [] => [p]
  | q :: rest => if q.length ≤ p.length then p :: q :: rest else q :: insertByLenDesc p rest

/-- Sort by decreasing path length, the visit order of
`os.walk(root, topdown=False)` (children before parents). -/
def sortByLenDesc (ps : List FsPath) : List FsPath := ps.foldr insertByLenDesc []

/-- True when the directory has no remaining descendant directory and no
file at or below it. -/
def dirIsEmpty (st : St) (d : FsPath) : Bool :=
  !(st.dirs.any (fun q => d.isPrefixOf q && !(q == d))) &&
    !(st.files.any (fun f => d.isPrefixOf f.path))

/-- Function `_cleanup_empty_dirs` of sanitizer.py: walk bottom-up below
`root` and remove every directory other than root left empty. -/
def cleanupEmptyDirs (st : St) (root : FsPath) (dry : Bool) : St :=
  if dry then st
  else
    (sortByLenDesc (descendDirs st root)).foldl
      (fun acc d => if dirIsEmpty acc d then { acc with dirs := acc.dirs.erase d } else acc)
      st

/-- Function `_record_history` of sanitizer.py. -/
def recordHistory (st : St) (e : SanEntry) : St :=
  { st with journal := st.journal ++ [.sanitize e] }

/-- Function `sanitize` of sanitizer.py: existence check, gather, plan,
apply every move (or preview), clean up empty directories when asked,
and record one batch entry holding the planned move list when any move
was planned and this is not a dry run. -/
def sanitize (st : St) (now : Nat) (root : FsPath) (opts : SanitizerOptions)
    (rands : Nat → String) (today : String) : St × Option Err :=
  if !(pathExists st root) then (st, some (.fileNotFound root))
  else
    let files := gatherFiles st root opts.recursive
    if files.isEmpty then (st, none)
    else
      let moves := planMoves files root opts rands today
      andThen (applyMoves st moves opts.dry_run) (fun st1 =>
        let st2 := if opts.cleanup_empty then cleanupEmptyDirs st1 root opts.dry_run else st1
        if !opts.dry_run && !moves.isEmpty then
          (recordHistory st2 ⟨now, "sanitize", root, moves⟩, none)
        else (st2, none))

/-- Discriminator string `e["op"]` of a decoded history record. -/
def entryOp : Entry → String
  | .action a => a.op
  | .sanitize s => s.op

/-- Model of `max(i for i, e in enumerate(entries) if e["op"] == "sanitize")`:
the last record whose `op` field is "sanitize", with its index; `none`
models the ValueError of `max` on an empty sequence. -/
def lastSanAux : List Entry → Nat → Option (Nat × Entry)
  | [], _ => none
  | e :: rest, i =>
    match lastSanAux rest (i + 1) with
    | some r => some r
    | none => if entryOp e == "sanitize" then some (i, e) else none

/-- Index and value of the most recent sanitize-tagged history record. -/
def lastSan (es : List Entry) : Option (Nat × Entry) := lastSanAux es 0

/-- Function `revert_last_sanitize` of sanitizer.py: RuntimeError on an
empty history, ValueError when no record carries the "sanitize" tag,
KeyError when the found record has no `moves` key; otherwise pop that
record (in memory), replay its moves reversed and swapped, and save the
popped list only outside dry-run. -/
def revertLastSanitize (st : St) (dry : Bool) : St × Option Err :=
  if st.journal.isEmpty then (st, some (.runtimeError "No history available."))
  else
    match lastSan st.journal with
    | none => (st, some .valueError)
    | some (_, .action _) => (st, some .keyError)
    | some (i, .sanitize s) =>
      andThen (applyMoves st (s.moves.reverse.map (fun m => ⟨m.dst, m.src⟩)) dry)
        (fun st1 =>
          if dry then (st1, none)
          else ({ st1 with journal := st.journal.eraseIdx i }, none))

/-! Helper lemmas. -/

theorem andThen_fst_journal {j : List Entry} (r : St × Option Err)
    (f : St → St × Option Err) (hr : r.1.journal = j)
    (hf : ∀ s, (f s).1.journal = s.journal) :
    (andThen r f).1.journal = j := by
  rcases r with ⟨st1, _ | e⟩
  · simpa [andThen, hf st1] using hr
  · simpa [andThen] using hr

theorem linuxHidePath_dry (st : St) (p : FsPath) : linuxHidePath st p true = (st, none) := by
  unfold linuxHidePath runMv
  split <;> rfl

theorem linuxSeekPath_dry (st : St) (p : FsPath) : linuxSeekPath st p true = (st, none) := by
  unfold linuxSeekPath runMv
  split <;> rfl

theorem foldPaths_dry (f : St → FsPath → Bool → St × Option Err)
    (hf : ∀ st p, f st p true = (st, none)) (ps : List FsPath) (st : St) :
    foldPaths f st ps true = (st, none) := by
  induction ps generalizing st with
  | nil => rfl
  | cons p rest ih => simp [foldPaths, hf, andThen, ih]

theorem linux_dry (st : St) (a : Action) : (linux st a true).1 = st := by
  unfold linux
  split
  · rfl
  · split <;>
      [rw [linuxHidePath_dry]; rw [linuxSeekPath_dry]] <;>
      simp only [andThen] <;> split <;>
      simp [foldPaths_dry, linuxHidePath_dry, linuxSeekPath_dry]

theorem dispatch_dry (st : St) (a : Action) : (dispatch st a true).1 = st := by
  unfold dispatch
  have h := linux_dry st a
  rcases hl : linux st a true with ⟨st1, _ | e⟩ <;> rw [hl] at h <;> simpa [andThen] using h

theorem applyMoves_dry (moves : List Move) (st : St) : applyMoves st moves true = (st, none) := by
  induction moves generalizing st with
  | nil => rfl
  | cons m rest ih => simp [applyMoves, applyMove, andThen, ih]

theorem sanitize_dry (st : St) (now : Nat) (root : FsPath) (opts : SanitizerOptions)
    (rands : Nat → String) (today : String) (hdry : opts.dry_run = true) :
    (sanitize st now root opts rands today).1 = st := by
  simp only [sanitize, hdry]
  split
  · rfl
  · split
    · rfl
    · rw [applyMoves_dry]
      simp [andThen, cleanupEmptyDirs]

theorem revertLastChange_dry (st : St) (now : Nat) :
    (revertLastChange st now true).1 = st := by
  unfold revertLastChange
  split
  · rfl
  · rfl
  · rename_i a heq
    have h := dispatch_dry st (a.inverse now)
    rcases hd : dispatch st (a.inverse now) true with ⟨st1, oe⟩
    rw [hd] at h
    cases oe <;> simpa [andThen] using h

theorem revertLastSanitize_dry (st : St) : (revertLastSanitize st true).1 = st := by
  unfold revertLastSanitize
  split
  · rfl
  · split
    · rfl
    · rfl
    · rw [applyMoves_dry]
      simp [andThen]

theorem andThen_err_journal {j : List Entry} (r : St × Option Err) (f : St → St × Option Err)
    (e : Err) (hr : r.2 = some e → r.1.journal = j)
    (hf : ∀ s e2, (f s).2 = some e2 → False)
    (h : (andThen r f).2 = some e) : (andThen r f).1.journal = j := by
  rcases r with ⟨st1, _ | e'⟩
  · simp only [andThen] at h
    exact (hf st1 e h).elim
  · simp only [andThen] at h ⊢
    exact hr h

theorem mvPrim_journal (st : St) (src dst : FsPath) :
    (mvPrim st src dst).1.journal = st.journal := by
  unfold mvPrim
  split <;> rfl

theorem runMv_journal (dry : Bool) (st : St) (src dst : FsPath) :
    (runMv dry st src dst).1.journal = st.journal := by
  unfold runMv
  split
  · rfl
  · exact mvPrim_journal st src dst

theorem linuxHidePath_journal (st : St) (p : FsPath) (dry : Bool) :
    (linuxHidePath st p dry).1.journal = st.journal := by
  unfold linuxHidePath
  split
  · rfl
  · exact runMv_journal dry st p _

theorem linuxSeekPath_journal (st : St) (p : FsPath) (dry : Bool) :
    (linuxSeekPath st p dry).1.journal = st.journal := by
  unfold linuxSeekPath
  split
  · rfl
  · exact runMv_journal dry st p _

theorem foldPaths_journal (f : St → FsPath → Bool → St × Option Err)
    (hf : ∀ st p d, (f st p d).1.journal = st.journal) (ps : List FsPath) :
    ∀ (st : St) (d : Bool), (foldPaths f st ps d).1.journal = st.journal := by
  induction ps with
  | nil => intro st d; rfl
  | cons p rest ih =>
    intro st d
    exact andThen_fst_journal _ _ (hf st p d) (fun s => ih s d)

theorem linux_journal (st : St) (a : Action) (d : Bool) :
    (linux st a d).1.journal = st.journal := by
  unfold linux
  split
  · rfl
  · split
    · refine andThen_fst_journal _ _ (linuxHidePath_journal st a.path d) (fun s => ?_)
      split
      · exact foldPaths_journal _ linuxHidePath_journal _ s d
      · rfl
    · refine andThen_fst_journal _ _ (linuxSeekPath_journal st a.path d) (fun s => ?_)
      split
      · exact foldPaths_journal _ linuxSeekPath_journal _ s d
      · rfl

theorem dispatch_err_journal (st : St) (a : Action) (dry : Bool) (e : Err)
    (h : (dispatch st a dry).2 = some e) : (dispatch st a dry).1.journal = st.journal := by
  unfold dispatch at h ⊢
  refine andThen_err_journal _ _ e (fun _ => linux_journal st a dry) ?_ h
  intro s e2 hs
  cases dry <;> simp [recordAction] at hs

theorem applyMove_journal (st : St) (src dst : FsPath) (d : Bool) :
    (applyMove st src dst d).1.journal = st.journal := by
  unfold applyMove
  split
  · rfl
  · dsimp only
    split <;> rfl

theorem applyMoves_journal (moves : List Move) :
    ∀ (st : St) (d : Bool), (applyMoves st moves d).1.journal = st.journal := by
  induction moves with
  | nil => intro st d; rfl
  | cons m rest ih =>
    intro st d
    exact andThen_fst_journal _ _ (applyMove_journal st m.src m.dst d) (fun s => ih s d)

theorem cleanupEmptyDirs_journal (st : St) (root : FsPath) (d : Bool) :
    (cleanupEmptyDirs st root d).journal = st.journal := by
  unfold cleanupEmptyDirs
  split
  · rfl
  · generalize sortByLenDesc (descendDirs st root) = ds
    induction ds generalizing st with
    | nil => rfl
    | cons p rest ih =>
      simp only [List.foldl_cons]
      split
      · exact ih _
      · exact ih _

theorem sanitize_err_journal (st : St) (now : Nat) (root : FsPath)
    (opts : SanitizerOptions) (rands : Nat → String) (today : String) (e : Err)
    (h : (sanitize st now root opts rands today).2 = some e) :
    (sanitize st now root opts rands today).1.journal = st.journal := by
  unfold sanitize at h ⊢
  by_cases hr : pathExists st root
  · simp only [hr, Bool.not_true] at h ⊢
    by_cases hf : (gatherFiles st root opts.recursive).isEmpty
    · simp [hf] at h
    · simp only [hf, Bool.false_eq_true, if_false, if_true] at h ⊢
      refine andThen_err_journal _ _ e
        (fun _ => applyMoves_journal _ st opts.dry_run) ?_ h
      intro s e2 hs
      simp only [] at hs
      split at hs <;> simp at hs
  · simp [hr] at h ⊢

/-- Claim C5: every command-surface operation invoked with dry_run = true
leaves both the filesystem (directories and files) and the persisted
journal exactly as they were: the full state after the call equals the
state before it, whether the call succeeds or raises. -/
theorem dry_run_preserves_state (st : St) (now : Nat) (p : FsPath) (r : Bool)
    (root : FsPath) (opts : SanitizerOptions) (rands : Nat → String) (today : String) :
    (hide st now p r true).1 = st ∧
    (seek st now p r true).1 = st ∧
    (sanitize st now root { opts with dry_run := true } rands today).1 = st ∧
    (revertLastChange st now true).1 = st ∧
    (revertLastSanitize st true).1 = st :=
  ⟨dispatch_dry st _, dispatch_dry st _, sanitize_dry st now root _ rands today rfl,
    revertLastChange_dry st now, revertLastSanitize_dry st⟩

/-- Claim C6: for every mutating operation (hide, seek, sanitize), a
journal entry is appended only after the filesystem mutation has
succeeded: whenever the operation raises, the error is propagated (it is
the `some e` result) and the persisted journal is exactly as it was
before the call. -/
theorem mutation_error_leaves_journal (st : St) (now : Nat) (p : FsPath) (r dry : Bool)
    (root : FsPath) (opts : SanitizerOptions) (rands : Nat → String) (today : String)
    (e : Err) :
    ((hide st now p r dry).2 = some e → (hide st now p r dry).1.journal = st.journal) ∧
    ((seek st now p r dry).2 = some e → (seek st now p r dry).1.journal = st.journal) ∧
    ((sanitize st now root opts rands today).2 = some e →
      (sanitize st now root opts rands today).1.journal = st.journal) :=
  ⟨fun h => dispatch_err_journal st _ dry e h,
    fun h => dispatch_err_journal st _ dry e h,
    fun h => sanitize_err_journal st now root opts rands today e h⟩

/-- Concrete run of C6: hiding a missing path raises FileNotFoundError
and the journal stays empty. -/
theorem mutation_error_leaves_journal_witness :
    (hide ⟨[], [], []⟩ 0 ["x"] false false).2 = some (.fileNotFound ["x"]) ∧
    (hide ⟨[], [], []⟩ 0 ["x"] false false).1.journal = [] :=
  ⟨by decide,
    (mutation_error_leaves_journal ⟨[], [], []⟩ 0 ["x"] false false [] {} (fun _ => "") ""
      (.fileNotFound ["x"])).1 (by decide)⟩

/-- Claim C7: when an undo operation raises (for any reason, in
particular when the replay of the inverse fails), the persisted journal
afterwards equals the journal before the call, so the popped entry is
still present, and the error is propagated. -/
theorem undo_error_preserves_journal (st : St) (now : Nat) (dry : Bool) (e : Err) :
    ((revertLastChange st now dry).2 = some e →
      (revertLastChange st now dry).1.journal = st.journal) ∧
    ((revertLastSanitize st dry).2 = some e →
      (revertLastSanitize st dry).1.journal = st.journal) := by
  constructor
  · intro h
    unfold revertLastChange at h ⊢
    split
    · rfl
    · rfl
    · rename_i a heq
      simp only [heq] at h
      refine andThen_err_journal _ _ e
        (fun h2 => dispatch_err_journal st (a.inverse now) dry e h2) ?_ h
      intro s e2 hs
      cases dry <;> simp at hs
  · intro h
    unfold revertLastSanitize at h ⊢
    split
    · rfl
    · rename_i hEmp
      rw [if_neg hEmp] at h
      split
      · rfl
      · rfl
      · rename_i i s heq
        simp only [heq] at h
        refine andThen_err_journal _ _ e
          (fun _ => applyMoves_journal _ st dry) ?_ h
        intro s2 e2 hs
        cases dry <;> simp at hs

/-- Concrete run of C7: undoing a hide whose path has disappeared raises
FileNotFoundError and the journal keeps its entry. -/
theorem undo_error_preserves_journal_witness :
    (revertLastChange ⟨[], [], [.action ⟨0, ["foo"], "hide", false⟩]⟩ 1 false).2 =
      some (.fileNotFound ["foo"]) ∧
    (revertLastChange ⟨[], [], [.action ⟨0, ["foo"], "hide", false⟩]⟩ 1 false).1.journal =
      [.action ⟨0, ["foo"], "hide", false⟩] :=
  ⟨by decide,
    (undo_error_preserves_journal ⟨[], [], [.action ⟨0, ["foo"], "hide", false⟩]⟩ 1 false
      (.fileNotFound ["foo"])).1 (by decide)⟩

/-- Claim C9: with an empty journal, both undo operations fail with the
no-history RuntimeError and return the state completely unchanged (no
filesystem mutation, no journal write). -/
theorem empty_journal_undo_raises (st : St) (now : Nat) (dry : Bool)
    (h : st.journal = []) :
    revertLastChange st now dry = (st, some (.runtimeError "No actions to revert.")) ∧
    revertLastSanitize st dry = (st, some (.runtimeError "No history available.")) := by
  constructor
  · unfold revertLastChange
    rw [h]
    rfl
  · unfold revertLastSanitize
    rw [h]
    rfl

/-- Concrete run of C9 on the empty state. -/
theorem empty_journal_undo_raises_witness :
    revertLastChange ⟨[], [], []⟩ 0 false =
      (⟨[], [], []⟩, some (.runtimeError "No actions to revert.")) ∧
    revertLastSanitize ⟨[], [], []⟩ false =
      (⟨[], [], []⟩, some (.runtimeError "No history available.")) :=
  empty_journal_undo_raises ⟨[], [], []⟩ 0 false rfl

theorem lastSanAux_eq_none (es : List Entry)
    (hes : ∀ en ∈ es, entryOp en ≠ "sanitize") : ∀ i, lastSanAux es i = none := by
  induction es with
  | nil => intro i; rfl
  | cons e rest ih =>
    intro i
    have h1 : lastSanAux rest (i + 1) = none :=
      ih (fun x hx => hes x (List.mem_cons_of_mem e hx)) (i + 1)
    have h2 : (entryOp e == "sanitize") = false := by
      rw [beq_eq_false_iff_ne]
      exact hes e (List.mem_cons_self e rest)
    simp [lastSanAux, h1, h2]

/-- Claim C10: on a non-empty journal in which no record carries the
"sanitize" discriminator, revert_last_sanitize raises ValueError (the
`max` of an empty index sequence) — not the documented no-history
RuntimeError — and returns the state unchanged: no filesystem mutation,
no journal write. -/
theorem action_only_journal_sanitize_undo (st : St) (dry : Bool)
    (hne : st.journal ≠ []) (hall : ∀ en ∈ st.journal, entryOp en ≠ "sanitize") :
    revertLastSanitize st dry = (st, some .valueError) := by
  have hempty : st.journal.isEmpty = false := by simpa using hne
  have hlast : lastSan st.journal = none := lastSanAux_eq_none st.journal hall 0
  unfold revertLastSanitize
  simp [hempty, hlast]

/-- Concrete run of C10: a journal holding one hide action. -/
theorem action_only_journal_sanitize_undo_witness :
    revertLastSanitize ⟨[], [], [.action ⟨0, ["f"], "hide", false⟩]⟩ false =
      (⟨[], [], [.action ⟨0, ["f"], "hide", false⟩]⟩, some .valueError) :=
  action_only_journal_sanitize_undo ⟨[], [], [.action ⟨0, ["f"], "hide", false⟩]⟩ false
    (by decide) (by decide)

instance {ε α : Type} [DecidableEq ε] [DecidableEq α] : DecidableEq (Except ε α) :=
  fun a b =>
    match a, b with
    | .ok x, .ok y => if h : x = y then .isTrue (by rw [h]) else .isFalse (by simp [h])
    | .error x, .error y => if h : x = y then .isTrue (by rw [h]) else .isFalse (by simp [h])
    | .ok _, .error _ => .isFalse (by simp)
    | .error _, .ok _ => .isFalse (by simp)

/-- Claim C1 (evidence of the code bug): a visible directory `foo` is
hidden (renamed to `.foo`, entry journaled), but the journal records the
pre-rename path, so `revert_last_change` re-checks `foo`, raises
FileNotFoundError, and leaves the directory hidden and the entry in the
journal; `is_hidden` at the original path cannot return to its prior
value (it raises as well), for either recursive flag. -/
theorem hide_then_revert_fails (r : Bool) :
    isHidden ⟨[["foo"]], [], []⟩ ["foo"] = .ok false ∧
    (hide ⟨[["foo"]], [], []⟩ 0 ["foo"] r false).2 = none ∧
    (andThen (hide ⟨[["foo"]], [], []⟩ 0 ["foo"] r false)
        (fun s => revertLastChange s 1 false)) =
      (⟨[[".foo"]], [], [.action ⟨0, ["foo"], "hide", r⟩]⟩, some (.fileNotFound ["foo"])) ∧
    isHidden ⟨[[".foo"]], [], [.action ⟨0, ["foo"], "hide", r⟩]⟩ ["foo"] =
      .error (.fileNotFound ["foo"]) := by
  cases r <;> decide

/-- Claim C4 (evidence of the code bug): after `hide` renames `foo` to
`.foo`, the subsequent `seek` on the same path raises FileNotFoundError
and the directory stays hidden, for either recursive flag: the hide/seek
pair does not restore `is_hidden`. -/
theorem hide_then_seek_fails (r : Bool) :
    isHidden ⟨[["foo"]], [], []⟩ ["foo"] = .ok false ∧
    (andThen (hide ⟨[["foo"]], [], []⟩ 0 ["foo"] r false)
        (fun s => seek s 1 ["foo"] r false)) =
      (⟨[[".foo"]], [], [.action ⟨0, ["foo"], "hide", r⟩]⟩, some (.fileNotFound ["foo"])) := by
  cases r <;> decide

/-- Stat dates used by the concrete sanitize scenarios. -/
def dateA : Date := ⟨2024, 1, 1⟩

def dateB : Date := ⟨2024, 2, 1⟩

def dateM : Date := ⟨2030, 5, 5⟩

/-- Scenario state of claim C8: `root` holding `a.txt` created 2024-01-01
and `b.jpg` created 2024-02-01 (modification times deliberately
different, to pin the default date source to creation time). -/
def typeDateState : St :=
  ⟨[["root"]],
    [⟨["root", "a.txt"], dateA, dateM, 1⟩, ⟨["root", "b.jpg"], dateB, dateM, 2⟩],
    []⟩

/-- Policy of claim C8: sort_by_type and sort_by_date, no rename. -/
def typeDateOpts : SanitizerOptions := { sort_by_type := true, sort_by_date := true }

/-- Claim C8: with sort_by_type and sort_by_date and no rename, sanitize
sends `root/a.txt` (created 2024-01-01) to `root/txt/2024-01-01/a.txt`
and `root/b.jpg` (created 2024-02-01) to `root/jpg/2024-02-01/b.jpg`,
and the subsequent undo restores both files to `root/` and removes the
one batch entry from the journal. -/
theorem sanitize_type_date_scenario :
    (sanitize typeDateState 7 ["root"] typeDateOpts (fun _ => "000") "121025").2 = none ∧
    (sanitize typeDateState 7 ["root"] typeDateOpts (fun _ => "000") "121025").1.files.map
        SFile.path =
      [["root", "txt", "2024-01-01", "a.txt"], ["root", "jpg", "2024-02-01", "b.jpg"]] ∧
    (andThen (sanitize typeDateState 7 ["root"] typeDateOpts (fun _ => "000") "121025")
        (fun s => revertLastSanitize s false)).2 = none ∧
    (andThen (sanitize typeDateState 7 ["root"] typeDateOpts (fun _ => "000") "121025")
        (fun s => revertLastSanitize s false)).1.files = typeDateState.files ∧
    (andThen (sanitize typeDateState 7 ["root"] typeDateOpts (fun _ => "000") "121025")
        (fun s => revertLastSanitize s false)).1.journal = [] := by
  decide

/-- Sanitize batch entry used by the mixed-journal scenarios: one file
moved from root/y to root/z. -/
def sanEntryYZ : SanEntry := ⟨0, "sanitize", ["root"], [⟨["root", "y"], ["root", "z"]⟩]⟩

/-- Hide action used by the mixed-journal scenarios. -/
def hideRootAction : Action := ⟨0, ["root"], "hide", false⟩

/-- Counterexample to claim C3: with a journal ending in a sanitize
entry, revert_last_change raises TypeError instead of decoding it by its
kind; and with a journal [sanitize, action], revert_last_sanitize skips
past the final action entry and removes the earlier sanitize entry. -/
theorem undo_kind_dispatch_cex :
    revertLastChange
        ⟨[["root"]], [⟨["root", "z"], dateA, dateM, 1⟩], [.sanitize sanEntryYZ]⟩ 5 false =
      (⟨[["root"]], [⟨["root", "z"], dateA, dateM, 1⟩], [.sanitize sanEntryYZ]⟩,
        some .typeError) ∧
    (revertLastSanitize
        ⟨[["root"]], [⟨["root", "z"], dateA, dateM, 1⟩],
          [.sanitize sanEntryYZ, .action hideRootAction]⟩ false).2 = none ∧
    (revertLastSanitize
        ⟨[["root"]], [⟨["root", "z"], dateA, dateM, 1⟩],
          [.sanitize sanEntryYZ, .action hideRootAction]⟩ false).1.journal =
      [.action hideRootAction] := by
  decide

theorem eraseIdx_append_two {α : Type} (es : List α) (x y : α) :
    (es ++ [x, y]).eraseIdx es.length = es ++ [y] := by
  induction es with
  | nil => rfl
  | cons e rest ih => simpa [List.eraseIdx] using ih

theorem lastSanAux_penultimate (a : Action) (s : SanEntry)
    (hs : s.op = "sanitize") (ha : a.op ≠ "sanitize") (es : List Entry) :
    ∀ i : Nat, lastSanAux (es ++ [.sanitize s, .action a]) i =
      some (i + es.length, .sanitize s) := by
  induction es with
  | nil =>
    intro i
    have ha2 : (a.op == "sanitize") = false := beq_eq_false_iff_ne.mpr ha
    have hs2 : (s.op == "sanitize") = true := beq_iff_eq.mpr hs
    simp [lastSanAux, entryOp, ha2, hs2]
  | cons e rest ih =>
    intro i
    simp only [List.cons_append, lastSanAux, List.append_eq, ih (i + 1), List.length_cons,
      Option.some.injEq, Prod.mk.injEq]
    exact ⟨by omega, trivial⟩

/-- Amended claim C3: the undo operations do not dispatch on the entry
kind. revert_last_change always takes the entry at the final sequence
position and raises TypeError when that entry is a sanitize batch, with
the state unchanged; revert_last_sanitize takes the most recent
sanitize-tagged entry even when later visibility actions follow it, so
on success it removes that earlier entry and leaves the later action in
the journal. -/
theorem undo_kind_behavior (st : St) (now : Nat) (dry : Bool) :
    (∀ (es : List Entry) (s : SanEntry), st.journal = es ++ [.sanitize s] →
      revertLastChange st now dry = (st, some .typeError)) ∧
    (∀ (es : List Entry) (s : SanEntry) (a : Action),
      s.op = "sanitize" → a.op ≠ "sanitize" →
      st.journal = es ++ [.sanitize s, .action a] →
      (revertLastSanitize st false).2 = none →
      (revertLastSanitize st false).1.journal = es ++ [.action a]) := by
  constructor
  · intro es s hj
    unfold revertLastChange
    rw [hj, List.getLast?_concat]
  · intro es s a hs ha hj h2
    have hlast : lastSan st.journal = some (es.length, .sanitize s) := by
      rw [hj]
      simpa using lastSanAux_penultimate a s hs ha es 0
    have hne : st.journal.isEmpty = false := by rw [hj]; simp
    have herase : st.journal.eraseIdx es.length = es ++ [.action a] := by
      rw [hj]
      exact eraseIdx_append_two es _ _
    unfold revertLastSanitize at h2 ⊢
    rw [if_neg (by simp [hne])] at h2 ⊢
    simp only [hlast] at h2 ⊢
    rcases ham : applyMoves st (s.moves.reverse.map (fun m => ⟨m.dst, m.src⟩)) false
      with ⟨st1, _ | e⟩
    · rw [ham] at h2 ⊢
      simpa [andThen] using herase
    · rw [ham] at h2
      simp [andThen] at h2

/-- Concrete runs of the amended claim C3, discharging its hypotheses. -/
theorem undo_kind_behavior_witness :
    revertLastChange ⟨[], [], [.sanitize ⟨0, "sanitize", ["r"], []⟩]⟩ 0 false =
      (⟨[], [], [.sanitize ⟨0, "sanitize", ["r"], []⟩]⟩, some .typeError) ∧
    (revertLastSanitize
        ⟨[], [], [.sanitize ⟨0, "sanitize", ["r"], []⟩, .action ⟨0, ["r"], "hide", false⟩]⟩
        false).1.journal = [.action ⟨0, ["r"], "hide", false⟩] :=
  ⟨(undo_kind_behavior ⟨[], [], [.sanitize ⟨0, "sanitize", ["r"], []⟩]⟩ 0 false).1
      [] ⟨0, "sanitize", ["r"], []⟩ rfl,
    (undo_kind_behavior
        ⟨[], [], [.sanitize ⟨0, "sanitize", ["r"], []⟩, .action ⟨0, ["r"], "hide", false⟩]⟩
        0 false).2
      [] ⟨0, "sanitize", ["r"], []⟩ ⟨0, ["r"], "hide", false⟩ rfl (by decide) rfl (by decide)⟩

/-- State of the collision scenario: two files named x.txt in different
subfolders of r, so that type-sorting plans the same destination for
both. -/
def collisionState : St :=
  ⟨[["r"], ["r", "s1"], ["r", "s2"]],
    [⟨["r", "s1", "x.txt"], dateA, dateM, 1⟩, ⟨["r", "s2", "x.txt"], dateB, dateM, 2⟩],
    []⟩

/-- Policy of the collision scenario. -/
def collisionOpts : SanitizerOptions := { sort_by_type := true, recursive := true }

/-- Counterexample to claim C2: both planned destinations are
r/txt/x.txt; after the batch, the journal entry records that planned
destination for both moves, although the second file actually landed at
the collision-resolved r/txt/x_1.txt (so the entry does not record the
actual resolved pairs); consequently revert_last_sanitize raises
FileNotFoundError, moves the first file to the second file's original
path, and leaves the second file unrestored. -/
theorem sanitize_collision_cex :
    (sanitize collisionState 7 ["r"] collisionOpts (fun _ => "000") "121025").2 = none ∧
    (sanitize collisionState 7 ["r"] collisionOpts (fun _ => "000") "121025").1.journal =
      [.sanitize ⟨7, "sanitize", ["r"],
        [⟨["r", "s1", "x.txt"], ["r", "txt", "x.txt"]⟩,
          ⟨["r", "s2", "x.txt"], ["r", "txt", "x.txt"]⟩]⟩] ∧
    (sanitize collisionState 7 ["r"] collisionOpts (fun _ => "000") "121025").1.files.map
        SFile.path = [["r", "txt", "x.txt"], ["r", "txt", "x_1.txt"]] ∧
    (andThen (sanitize collisionState 7 ["r"] collisionOpts (fun _ => "000") "121025")
        (fun s => revertLastSanitize s false)).2 =
      some (.fileNotFound ["r", "txt", "x.txt"]) ∧
    (andThen (sanitize collisionState 7 ["r"] collisionOpts (fun _ => "000") "121025")
        (fun s => revertLastSanitize s false)).1.files =
      [⟨["r", "s2", "x.txt"], dateA, dateM, 1⟩, ⟨["r", "txt", "x_1.txt"], dateB, dateM, 2⟩] := by
  decide

/-- Amended claim C2: when sanitize applies at least one move
(non-dry-run) and succeeds, the single batch entry it appends records
the planned source→destination pairs, computed before apply-time
collision resolution, in execution order; these coincide with the actual
destinations only when no collision occurs, and under a collision both
files survive on disk but the second is not individually recoverable by
undo (see the counterexample). -/
theorem sanitize_appends_planned_moves (st st1 : St) (now : Nat) (root : FsPath)
    (opts : SanitizerOptions) (rands : Nat → String) (today : String)
    (hdry : opts.dry_run = false)
    (hrun : sanitize st now root opts rands today = (st1, none))
    (hmv : planMoves (gatherFiles st root opts.recursive) root opts rands today ≠ []) :
    st1.journal = st.journal ++
      [.sanitize ⟨now, "sanitize", root,
        planMoves (gatherFiles st root opts.recursive) root opts rands today⟩] := by
  unfold sanitize at hrun
  dsimp only at hrun
  by_cases hr : pathExists st root = true
  · rw [if_neg (by simp [hr])] at hrun
    by_cases hf : (gatherFiles st root opts.recursive).isEmpty = true
    · exfalso
      apply hmv
      rw [List.isEmpty_iff.mp hf]
      rfl
    · rw [if_neg hf, hdry] at hrun
      have hMne : (planMoves (gatherFiles st root opts.recursive) root opts
          rands today).isEmpty = false := by simpa using hmv
      rcases ham : applyMoves st
          (planMoves (gatherFiles st root opts.recursive) root opts rands today) false
        with ⟨stx, oe⟩
      rw [ham] at hrun
      cases oe with
      | some e => simp [andThen] at hrun
      | none =>
        simp only [andThen, hMne, Bool.not_false, Bool.true_and, if_true] at hrun
        have h1 : recordHistory
            (if opts.cleanup_empty then cleanupEmptyDirs stx root false else stx)
            ⟨now, "sanitize", root,
              planMoves (gatherFiles st root opts.recursive) root opts rands today⟩ = st1 :=
          congrArg Prod.fst hrun
        rw [← h1]
        have hW : (if opts.cleanup_empty then cleanupEmptyDirs stx root false
            else stx).journal = stx.journal := by
          split
          · exact cleanupEmptyDirs_journal stx root false
          · rfl
        have hst : stx.journal = st.journal := by
          have h2 := applyMoves_journal
            (planMoves (gatherFiles st root opts.recursive) root opts rands today) st false
          rw [ham] at h2
          exact h2
        simp [recordHistory, hW, hst]
  · rw [if_pos (by simp [hr])] at hrun
    simp at hrun

/-- State of the witness run of the amended claim C2: one file r/s/a.txt
to be sorted by type. -/
def plannedWitnessState : St :=
  ⟨[["r"], ["r", "s"]], [⟨["r", "s", "a.txt"], dateA, dateM, 1⟩], []⟩

/-- Policy of the witness run of the amended claim C2. -/
def plannedWitnessOpts : SanitizerOptions := { sort_by_type := true, recursive := true }

/-- Concrete run of the amended claim C2, discharging its hypotheses. -/
theorem sanitize_appends_planned_moves_witness :
    (sanitize plannedWitnessState 3 ["r"] plannedWitnessOpts (fun _ => "000")
        "121025").1.journal =
      plannedWitnessState.journal ++
        [.sanitize ⟨3, "sanitize", ["r"],
          planMoves (gatherFiles plannedWitnessState ["r"] plannedWitnessOpts.recursive)
            ["r"] plannedWitnessOpts (fun _ => "000") "121025"⟩] :=
  sanitize_appends_planned_moves plannedWitnessState
    (sanitize plannedWitnessState 3 ["r"] plannedWitnessOpts (fun _ => "000") "121025").1
    3 ["r"] plannedWitnessOpts (fun _ => "000") "121025" rfl (by decide) (by decide)

end Hns
